import Mathlib

/-!
Verification of the GCPSecretManager package (secretmgr.go): a shallow
embedding of the configuration resolver (NewConfig), the secret client
(GetSecret) and the environment loader (LoadSecretToEnv / parseAndSetEnv),
together with proofs of the parsing and validation contract.

Go strings are modelled as lists of characters; every comparison the
source performs on string bytes ('=', '[', ']', '\n', '\r', whitespace)
is on ASCII characters, so the character model is observationally
equivalent to Go's byte model.  The process environment is modelled as an
association list, most recent binding first: os.Setenv is a cons, and a
lookup takes the most recent binding, which gives overwrite semantics.
The remote secret-access capability and os.Getenv are passed as
functions.  os.Setenv never fails in the model, so the ParseError branch
of parseAndSetEnv that embeds a Setenv failure message is unreachable and
does not appear.
-/

deriving instance DecidableEq for Except

namespace GCPSecretManager

/-- A Go string, modelled as its list of characters. -/
abbrev Str := List Char

/-- Conversion from a Lean string literal into the model. -/
def str (s : String) : Str := s.data

/-- The process environment sink, most recent binding first. -/
abbrev Env := List (Str × Str)

/-- Model of os.Setenv: record a (possibly shadowing) binding. -/
def setEnvVar (env : Env) (k v : Str) : Env := (k, v) :: env

/-- Lookup in the environment sink: the most recent binding wins. -/
def lookupEnv (env : Env) (k : Str) : Option Str :=
  match env with
  | [] => none
  | (k0, v0) :: rest => if k0 = k then some v0 else lookupEnv rest k

/-- Model of strings.TrimSpace: drop whitespace from both ends. -/
def trimSpace (s : Str) : Str :=
  ((s.dropWhile Char.isWhitespace).reverse.dropWhile Char.isWhitespace).reverse

/-- Model of strings.SplitN line "=" 2: none when the line contains no
equals sign (Go returns a single part), otherwise the parts before and
after the first equals sign. -/
def splitFirstEq : Str → Option (Str × Str)
  | [] => none
  | c :: cs =>
    if c = '=' then some ([], cs)
    else
      match splitFirstEq cs with
      | some (k, v) => some (c :: k, v)
      | none => none

/-- Substring containment test, as strings.Contains. -/
def mentions (s sub : Str) : Bool :=
  (List.range (s.length + 1)).any fun i => sub.isPrefixOf (s.drop i)

/-- ParseError from secretmgr.go: the offending line, its 1-based line
number, and a human-readable reason. -/
structure ParseError where
  Line : Str
  LineNum : Nat
  Reason : Str
deriving DecidableEq

/-- Error rendering of ParseError: "invalid format at line %d (%s): %s". -/
def ParseError.message (e : ParseError) : Str :=
  str "invalid format at line " ++ str (toString e.LineNum) ++ str " ("
    ++ e.Line ++ str "): " ++ e.Reason

/-- parseAndSetEnv from secretmgr.go.  Splits the line at the first
equals sign, trims both parts, rejects an empty key, and when the
trimmed value still contains an equals sign requires it to be wrapped in
square brackets (length greater than 2, first character a left bracket,
last character a right bracket), in which case the outer brackets are
stripped.  On success the key/value pair is written to the environment
sink. -/
def parseAndSetEnv (line : Str) (lineNum : Nat) (env : Env) :
    Except ParseError Env :=
  match splitFirstEq line with
  | none =>
    .error ⟨line, lineNum, str "line must contain exactly one '=' character"⟩
  | some (rawKey, rawValue) =>
    let key := trimSpace rawKey
    let value := trimSpace rawValue
    if key = [] then
      .error ⟨line, lineNum, str "empty key is not allowed"⟩
    else if value.contains '=' then
      if 2 < value.length ∧ value.head? = some '[' ∧ value.getLast? = some ']' then
        .ok (setEnvVar env key ((value.drop 1).dropLast))
      else
        .error ⟨line, lineNum, str "invalid specific key-value pair"⟩
    else
      .ok (setEnvVar env key value)

/-- Split at newline characters, keeping every piece including a trailing
empty one, as strings.Split would. -/
def splitNL : Str → List Str
  | [] => [[]]
  | c :: cs =>
    if c = '\n' then [] :: splitNL cs
    else
      match splitNL cs with
      | p :: ps => (c :: p) :: ps
      | [] => [[c]]

/-- bufio.ScanLines drops one trailing carriage return from each line. -/
def dropCR (s : Str) : Str :=
  if s.getLast? = some '\r' then s.dropLast else s

/-- Model of the scanner produced by newScanner: the sequence of lines it
yields.  bufio.ScanLines splits at newlines, a final newline does not
produce an extra empty line, and one trailing carriage return is removed
from each line. -/
def scanLines (s : Str) : List Str :=
  let ps := splitNL s
  (if ps.getLast? = some [] then ps.dropLast else ps).map dropCR

/-- Errors produced by LoadSecretToEnv. -/
inductive LoadError where
  | retrieveFailed (msg : Str)
  | setEnvFailed (e : ParseError)
deriving DecidableEq

/-- Error rendering of LoadError, with the wrapping text used by
LoadSecretToEnv. -/
def LoadError.message : LoadError → Str
  | .retrieveFailed m => str "failed to retrieve secret: " ++ m
  | .setEnvFailed e => str "failed to set environment variable: " ++ e.message

/-- The scanner loop of LoadSecretToEnv.  The second argument is the
value of the Go lineNum counter before the iteration, i.e. the number of
lines already consumed; each line is trimmed, blank lines are skipped,
and the first parse failure aborts the loop, returning the environment
as mutated so far together with the error. -/
def loadLinesFrom : List Str → Nat → Env → Env × Option ParseError
  | [], _, env => (env, none)
  | l :: ls, lineNum, env =>
    let line := trimSpace l
    if line = [] then
      loadLinesFrom ls (lineNum + 1) env
    else
      match parseAndSetEnv line (lineNum + 1) env with
      | .ok env2 => loadLinesFrom ls (lineNum + 1) env2
      | .error e => (env, some e)

/-- Loading fetched content: split into lines, process in order, and wrap
the first parse failure as "failed to set environment variable". -/
def loadContentToEnv (content : Str) (env : Env) : Env × Option LoadError :=
  match loadLinesFrom (scanLines content) 0 env with
  | (env2, none) => (env2, none)
  | (env2, some e) => (env2, some (.setEnvFailed e))

/-- LoadSecretToEnv from secretmgr.go, given the outcome of GetSecret: a
fetch failure is wrapped as "failed to retrieve secret" and nothing is
written; otherwise the content is loaded line by line. -/
def LoadSecretToEnv (fetched : Except Str Str) (env : Env) :
    Env × Option LoadError :=
  match fetched with
  | .error msg => (env, some (.retrieveFailed msg))
  | .ok content => loadContentToEnv content env

/-- ConfigError from secretmgr.go. -/
structure ConfigError where
  MissingField : Str
deriving DecidableEq

/-- Config from secretmgr.go. -/
structure Config where
  ProjectID : Str
  SecretName : Str
  SecretVersion : Str
deriving DecidableEq

/-- NewConfig from secretmgr.go.  os.Getenv is the supplied function; it
returns the empty string for unset variables, so absent and empty
coincide, as in Go. -/
def NewConfig (osGetenv : Str → Str) : Except ConfigError Config :=
  let projectID := osGetenv (str "GCP_PROJECT_ID")
  if projectID = [] then
    .error ⟨str "GCP_PROJECT_ID"⟩
  else
    let secretName := osGetenv (str "SECRET_NAME")
    if secretName = [] then
      .error ⟨str "SECRET_NAME"⟩
    else
      let secretVersion0 := osGetenv (str "SECRET_VERSION")
      let secretVersion := if secretVersion0 = [] then str "latest" else secretVersion0
      .ok ⟨projectID, secretName, secretVersion⟩

/-- The fully-qualified resource name built by GetSecret. -/
def resourceName (cfg : Config) : Str :=
  str "projects/" ++ cfg.ProjectID ++ str "/secrets/" ++ cfg.SecretName
    ++ str "/versions/" ++ cfg.SecretVersion

/-- GetSecret from secretmgr.go, with the remote capability's single read
operation passed as a function from resource name to payload bytes or
error.  The 10-second deadline only bounds real time and has no pure
counterpart; an expired deadline surfaces as an error from the
capability. -/
def GetSecret (cfg : Config) (accessSecretVersion : Str → Except Str Str) :
    Except Str Str :=
  match accessSecretVersion (resourceName cfg) with
  | .ok payload => .ok payload
  | .error e => .error (str "failed to access secret: " ++ e)

/-- Example os.Getenv with both required variables set and no version. -/
def getenvBothSet : Str → Str := fun k =>
  if k = str "GCP_PROJECT_ID" then str "p"
  else if k = str "SECRET_NAME" then str "s"
  else []

/-- Example configuration for exercising GetSecret. -/
def cfgExample : Config := ⟨str "p", str "s", str "v"⟩

/-- Example remote capability that always returns a payload. -/
def accessOkExample : Str → Except Str Str := fun _ => .ok (str "payload")

/-- Example remote capability that always fails. -/
def accessErrExample : Str → Except Str Str := fun _ => .error (str "boom")

/-- Characterisation of the failing case of the split: strings.SplitN
returns a single part exactly when the line contains no equals sign. -/
theorem splitFirstEq_eq_none_iff (s : Str) :
    splitFirstEq s = none ↔ s.contains '=' = false := by
  induction s with
  | nil => simp [splitFirstEq]
  | cons c cs ih =>
    simp only [splitFirstEq, List.contains_cons]
    by_cases hc : c = '='
    · subst hc
      simp
    · rw [if_neg hc]
      cases hsplit : splitFirstEq cs with
      | none =>
        have hmem : '=' ∉ cs := by simpa using ih.mp hsplit
        simp [Ne.symm hc, hmem]
      | some kv =>
        obtain ⟨k, v⟩ := kv
        have hcs : cs.contains '=' = true := by
          cases hb : cs.contains '=' with
          | false => exact absurd (ih.mpr hb) (by simp [hsplit])
          | true => rfl
        have hmem : '=' ∈ cs := by simpa using hcs
        simp [hmem]

/-- Characterisation of the successful split: the parts are the text
before and after the first equals sign of the line. -/
theorem splitFirstEq_some_spec (s k v : Str) (h : splitFirstEq s = some (k, v)) :
    s = k ++ '=' :: v ∧ k.contains '=' = false := by
  induction s generalizing k v with
  | nil => simp [splitFirstEq] at h
  | cons c cs ih =>
    simp only [splitFirstEq] at h
    by_cases hc : c = '='
    · subst hc
      rw [if_pos rfl] at h
      have h1 : (([] : Str), cs) = (k, v) := Option.some.inj h
      have hk2 : ([] : Str) = k := congrArg Prod.fst h1
      have hv2 : cs = v := congrArg Prod.snd h1
      subst hk2
      subst hv2
      simp
    · rw [if_neg hc] at h
      cases hsplit : splitFirstEq cs with
      | none => rw [hsplit] at h; exact absurd h (by simp)
      | some kv =>
        obtain ⟨k0, v0⟩ := kv
        rw [hsplit] at h
        have h1 : (c :: k0, v0) = (k, v) := Option.some.inj h
        have hk2 : c :: k0 = k := congrArg Prod.fst h1
        have hv2 : v0 = v := congrArg Prod.snd h1
        subst hk2
        subst hv2
        obtain ⟨hs, hk⟩ := ih k0 v0 hsplit
        have hmem : '=' ∉ k0 := by simpa using hk
        constructor
        · simp [hs]
        · simp [List.contains_cons, Ne.symm hc, hmem]

/-- Every ParseError produced by parseAndSetEnv carries the line number
it was called with. -/
theorem parseAndSetEnv_error_lineNum (line : Str) (n : Nat) (env : Env)
    (e : ParseError) (h : parseAndSetEnv line n env = .error e) :
    e.LineNum = n := by
  unfold parseAndSetEnv at h
  cases hsplit : splitFirstEq line with
  | none =>
    rw [hsplit] at h
    injection h with h1
    rw [← h1]
  | some kv =>
    obtain ⟨rk, rv⟩ := kv
    rw [hsplit] at h
    dsimp only at h
    split_ifs at h with h1 h2 h3
    all_goals rw [← Except.error.inj h]

/-- Running the loader over a prefix of the lines that succeeds, then
over the remaining lines, is running it over the whole list: the line
counter advances by the length of the prefix and the environment carries
the writes of the prefix. -/
theorem loadLinesFrom_append (pre tail : List Str) (k : Nat) (env env1 : Env)
    (h : loadLinesFrom pre k env = (env1, none)) :
    loadLinesFrom (pre ++ tail) k env = loadLinesFrom tail (k + pre.length) env1 := by
  induction pre generalizing k env with
  | nil =>
    have henv : env = env1 := congrArg Prod.fst h
    subst henv
    simp [loadLinesFrom]
  | cons l ls ih =>
    have harith : k + 1 + ls.length = k + (l :: ls).length := by
      simp only [List.length_cons]
      omega
    simp only [loadLinesFrom, List.cons_append, List.append_eq] at h ⊢
    by_cases hblank : trimSpace l = []
    · rw [if_pos hblank] at h ⊢
      rw [ih (k + 1) env h, harith]
    · rw [if_neg hblank] at h ⊢
      cases hp : parseAndSetEnv (trimSpace l) (k + 1) env with
      | ok env2 =>
        rw [hp] at h
        dsimp only at h ⊢
        rw [ih (k + 1) env2 h, harith]
      | error e =>
        rw [hp] at h
        dsimp only at h
        exact absurd (congrArg Prod.snd h) (by simp)

/-- Reduction of parseAndSetEnv when the trimmed key is empty. -/
theorem parseAndSetEnv_empty_key (line rawKey rawValue : Str) (n : Nat)
    (env : Env)
    (hsplit : splitFirstEq line = some (rawKey, rawValue))
    (hkey : trimSpace rawKey = []) :
    parseAndSetEnv line n env
      = .error ⟨line, n, str "empty key is not allowed"⟩ := by
  unfold parseAndSetEnv
  rw [hsplit]
  dsimp only
  rw [if_pos hkey]

/-- Reduction of parseAndSetEnv when the trimmed value contains an
equals sign and is validly bracket-wrapped. -/
theorem parseAndSetEnv_bracket_ok (line rawKey rawValue : Str) (n : Nat)
    (env : Env)
    (hsplit : splitFirstEq line = some (rawKey, rawValue))
    (hkey : trimSpace rawKey ≠ [])
    (hval : (trimSpace rawValue).contains '=' = true)
    (hbr : 2 < (trimSpace rawValue).length
        ∧ (trimSpace rawValue).head? = some '['
        ∧ (trimSpace rawValue).getLast? = some ']') :
    parseAndSetEnv line n env
      = .ok ((trimSpace rawKey,
          ((trimSpace rawValue).drop 1).dropLast) :: env) := by
  unfold parseAndSetEnv
  rw [hsplit]
  dsimp only
  rw [if_neg hkey, if_pos hval, if_pos hbr]
  rfl

/-- Reduction of parseAndSetEnv when the trimmed value contains an
equals sign but is not validly bracket-wrapped. -/
theorem parseAndSetEnv_bracket_err (line rawKey rawValue : Str) (n : Nat)
    (env : Env)
    (hsplit : splitFirstEq line = some (rawKey, rawValue))
    (hkey : trimSpace rawKey ≠ [])
    (hval : (trimSpace rawValue).contains '=' = true)
    (hbr : ¬(2 < (trimSpace rawValue).length
        ∧ (trimSpace rawValue).head? = some '['
        ∧ (trimSpace rawValue).getLast? = some ']')) :
    parseAndSetEnv line n env
      = .error ⟨line, n, str "invalid specific key-value pair"⟩ := by
  unfold parseAndSetEnv
  rw [hsplit]
  dsimp only
  rw [if_neg hkey, if_pos hval, if_neg hbr]

/-- Reduction of parseAndSetEnv when the trimmed value contains no
equals sign: the trimmed key and value are written as they are. -/
theorem parseAndSetEnv_plain_ok (line rawKey rawValue : Str) (n : Nat)
    (env : Env)
    (hsplit : splitFirstEq line = some (rawKey, rawValue))
    (hkey : trimSpace rawKey ≠ [])
    (hval : (trimSpace rawValue).contains '=' = false) :
    parseAndSetEnv line n env
      = .ok ((trimSpace rawKey, trimSpace rawValue) :: env) := by
  unfold parseAndSetEnv
  rw [hsplit]
  dsimp only
  rw [if_neg hkey, if_neg (by rw [hval]; exact Bool.false_ne_true)]
  rfl

/-- Claim C1, counterexample: for the line "FOO=bar=baz" the loader does
fail and FOO is never set, but the reason of the ParseError is "invalid
specific key-value pair" — the line splits at the first equals sign into
key FOO and value bar=baz, so the "exactly one '=' character" branch is
not taken, and the actual reason does not mention that phrase. -/
theorem double_equals_reason_counterexample :
    loadContentToEnv (str "FOO=bar=baz") []
      = ([], some (.setEnvFailed
          ⟨str "FOO=bar=baz", 1, str "invalid specific key-value pair"⟩))
    ∧ mentions (str "invalid specific key-value pair")
        (str "exactly one '=' character") = false := by
  exact ⟨by decide, by decide⟩

/-- Claim C1 (amended): for the input line "FOO=bar=baz",
loadSecretToEnv fails with a parse error whose reason is "invalid
specific key-value pair", and the environment variable FOO is never set
(the environment is returned unchanged). -/
theorem double_equals_fails_invalid_pair (env : Env) :
    loadContentToEnv (str "FOO=bar=baz") env
      = (env, some (.setEnvFailed
          ⟨str "FOO=bar=baz", 1, str "invalid specific key-value pair"⟩))
    ∧ lookupEnv (loadContentToEnv (str "FOO=bar=baz") env).1 (str "FOO")
      = lookupEnv env (str "FOO") :=
  ⟨rfl, rfl⟩

/-- Claim C2: for every line whose trimmed value contains an equals
sign, parseAndSetEnv accepts the line if and only if the value has
length greater than 2, first character a left bracket and last character
a right bracket; in that case the outer brackets are stripped and the
inner text is written verbatim as the value. -/
theorem bracket_escape_accepts_iff (line rawKey rawValue : Str) (n : Nat)
    (env : Env)
    (hsplit : splitFirstEq line = some (rawKey, rawValue))
    (hkey : trimSpace rawKey ≠ [])
    (hval : (trimSpace rawValue).contains '=' = true) :
    ((∃ env2, parseAndSetEnv line n env = .ok env2)
      ↔ 2 < (trimSpace rawValue).length
          ∧ (trimSpace rawValue).head? = some '['
          ∧ (trimSpace rawValue).getLast? = some ']')
    ∧ (2 < (trimSpace rawValue).length
          ∧ (trimSpace rawValue).head? = some '['
          ∧ (trimSpace rawValue).getLast? = some ']' →
        parseAndSetEnv line n env
          = .ok ((trimSpace rawKey,
              ((trimSpace rawValue).drop 1).dropLast) :: env)) := by
  constructor
  · constructor
    · rintro ⟨env2, henv2⟩
      by_contra hbr
      rw [parseAndSetEnv_bracket_err line rawKey rawValue n env hsplit hkey
        hval hbr] at henv2
      exact Except.noConfusion henv2
    · intro hbr
      exact ⟨_, parseAndSetEnv_bracket_ok line rawKey rawValue n env hsplit
        hkey hval hbr⟩
  · intro hbr
    exact parseAndSetEnv_bracket_ok line rawKey rawValue n env hsplit hkey
      hval hbr

/-- Claim C2, witness: the line "FOO=[a=b]" sets FOO to "a=b". -/
theorem bracket_escape_accepts_iff_witness :
    splitFirstEq (str "FOO=[a=b]") = some (str "FOO", str "[a=b]")
    ∧ parseAndSetEnv (str "FOO=[a=b]") 1 [] = .ok [(str "FOO", str "a=b")] := by
  refine ⟨by decide, ?_⟩
  have h := (bracket_escape_accepts_iff (str "FOO=[a=b]") (str "FOO")
      (str "[a=b]") 1 [] (by decide) (by decide) (by decide)).2 (by decide)
  exact h.trans (by decide)

/-- Claim C3, counterexample: a value with several extra equals signs,
and a value with nested brackets, are both accepted as long as the
whole value is bracket-wrapped — the code never inspects the inner
text, contradicting the claim that such lines are rejected. -/
theorem bracket_content_unchecked_counterexample :
    parseAndSetEnv (str "FOO=[a=b=c]") 1 [] = .ok [(str "FOO", str "a=b=c")]
    ∧ parseAndSetEnv (str "FOO=[[a=b]]") 1 [] = .ok [(str "FOO", str "[a=b]")] := by
  exact ⟨by decide, by decide⟩

/-- Claim C3 (amended): for a line whose trimmed value contains an
equals sign, a value that is not bracket-wrapped (length at most 2, or
first character not a left bracket, or last character not a right
bracket) is rejected with reason "invalid specific key-value pair";
a fully bracket-wrapped value is accepted with the outer brackets
stripped and the inner text taken verbatim, regardless of how many
equals signs or nested brackets the inner text contains. -/
theorem bracket_wrap_amended (line rawKey rawValue : Str) (n : Nat)
    (env : Env)
    (hsplit : splitFirstEq line = some (rawKey, rawValue))
    (hkey : trimSpace rawKey ≠ [])
    (hval : (trimSpace rawValue).contains '=' = true) :
    (¬(2 < (trimSpace rawValue).length
        ∧ (trimSpace rawValue).head? = some '['
        ∧ (trimSpace rawValue).getLast? = some ']') →
      parseAndSetEnv line n env
        = .error ⟨line, n, str "invalid specific key-value pair"⟩)
    ∧ (∀ inner, inner ≠ [] → trimSpace rawValue = '[' :: inner ++ [']'] →
      parseAndSetEnv line n env = .ok ((trimSpace rawKey, inner) :: env)) := by
  constructor
  · intro hbr
    exact parseAndSetEnv_bracket_err line rawKey rawValue n env hsplit hkey
      hval hbr
  · intro inner hinner hbracket
    have hlen : 0 < inner.length := List.length_pos.mpr hinner
    have hbr : 2 < (trimSpace rawValue).length
        ∧ (trimSpace rawValue).head? = some '['
        ∧ (trimSpace rawValue).getLast? = some ']' := by
      rw [hbracket]
      refine ⟨?_, rfl, ?_⟩
      · simp only [List.length_cons, List.length_append, List.length_nil]
        omega
      · show (('[' :: inner) ++ [']']).getLast? = some ']'
        exact List.getLast?_concat _
    have h := parseAndSetEnv_bracket_ok line rawKey rawValue n env hsplit
      hkey hval hbr
    rw [hbracket] at h
    simpa [List.dropLast_concat] using h

/-- Claim C3 (amended), witness: partial wrapping is rejected, full
wrapping is accepted with the inner text taken verbatim. -/
theorem bracket_wrap_amended_witness :
    parseAndSetEnv (str "FOO=a=b") 1 []
      = .error ⟨str "FOO=a=b", 1, str "invalid specific key-value pair"⟩
    ∧ parseAndSetEnv (str "FOO=[x=y]") 1 [] = .ok [(str "FOO", str "x=y")] := by
  constructor
  · exact (bracket_wrap_amended (str "FOO=a=b") (str "FOO") (str "a=b") 1 []
      (by decide) (by decide) (by decide)).1 (by decide)
  · have h := (bracket_wrap_amended (str "FOO=[x=y]") (str "FOO")
      (str "[x=y]") 1 [] (by decide) (by decide) (by decide)).2
      (str "x=y") (by decide) (by decide)
    exact h.trans (by decide)

/-- Claim C4: a line with no equals sign is rejected with a ParseError
carrying the line, the given 1-based line number and the reason "line
must contain exactly one '=' character"; a line with at least one equals
sign is split at the first equals sign only, into a raw key containing
no equals sign and a raw value. -/
theorem no_equals_line_rejected (line : Str) (n : Nat) (env : Env) :
    (line.contains '=' = false →
      parseAndSetEnv line n env
        = .error ⟨line, n, str "line must contain exactly one '=' character"⟩)
    ∧ (line.contains '=' = true →
      ∃ rawKey rawValue, splitFirstEq line = some (rawKey, rawValue)
        ∧ line = rawKey ++ '=' :: rawValue
        ∧ rawKey.contains '=' = false) := by
  constructor
  · intro h
    have hs : splitFirstEq line = none := (splitFirstEq_eq_none_iff line).mpr h
    simp [parseAndSetEnv, hs]
  · intro h
    cases hsplit : splitFirstEq line with
    | none =>
      rw [(splitFirstEq_eq_none_iff line).mp hsplit] at h
      exact Bool.noConfusion h
    | some kv =>
      obtain ⟨k, v⟩ := kv
      obtain ⟨h1, h2⟩ := splitFirstEq_some_spec line k v hsplit
      exact ⟨k, v, rfl, h1, h2⟩

/-- Claim C4, witness: the line "B" is rejected with the exact reason,
and the line "A=B=C" splits at the first equals sign only. -/
theorem no_equals_line_rejected_witness :
    parseAndSetEnv (str "B") 2 []
      = .error ⟨str "B", 2, str "line must contain exactly one '=' character"⟩
    ∧ ∃ rawKey rawValue, splitFirstEq (str "A=B=C") = some (rawKey, rawValue)
        ∧ str "A=B=C" = rawKey ++ '=' :: rawValue
        ∧ rawKey.contains '=' = false := by
  constructor
  · exact (no_equals_line_rejected (str "B") 2 []).1 (by decide)
  · exact (no_equals_line_rejected (str "A=B=C") 1 []).2 (by decide)

/-- Claim C5: a line whose key is empty after trimming is rejected with
reason "empty key is not allowed", and no environment write occurs for
that line. -/
theorem empty_key_rejected (line rawKey rawValue : Str) (n : Nat) (env : Env)
    (hsplit : splitFirstEq line = some (rawKey, rawValue))
    (hkey : trimSpace rawKey = []) :
    parseAndSetEnv line n env
      = .error ⟨line, n, str "empty key is not allowed"⟩ :=
  parseAndSetEnv_empty_key line rawKey rawValue n env hsplit hkey

/-- Claim C5, witness: the line "=value" is rejected with reason "empty
key is not allowed". -/
theorem empty_key_rejected_witness :
    splitFirstEq (str "=value") = some ([], str "value")
    ∧ parseAndSetEnv (str "=value") 1 []
        = .error ⟨str "=value", 1, str "empty key is not allowed"⟩ :=
  ⟨by decide, empty_key_rejected (str "=value") [] (str "value") 1 []
    (by decide) (by decide)⟩

/-- Claim C6: NewConfig fails with ConfigError "GCP_PROJECT_ID" whenever
the project identifier is empty, regardless of the other fields;
otherwise fails with ConfigError "SECRET_NAME" whenever the secret
identifier is empty; and when both are non-empty it succeeds, with the
version defaulting to the literal "latest" exactly when the supplied
version is empty. -/
theorem newConfig_contract (g : Str → Str) :
    (g (str "GCP_PROJECT_ID") = [] →
      NewConfig g = .error ⟨str "GCP_PROJECT_ID"⟩)
    ∧ (g (str "GCP_PROJECT_ID") ≠ [] → g (str "SECRET_NAME") = [] →
      NewConfig g = .error ⟨str "SECRET_NAME"⟩)
    ∧ (g (str "GCP_PROJECT_ID") ≠ [] → g (str "SECRET_NAME") ≠ [] →
        g (str "SECRET_VERSION") = [] →
      NewConfig g = .ok ⟨g (str "GCP_PROJECT_ID"), g (str "SECRET_NAME"),
        str "latest"⟩)
    ∧ (g (str "GCP_PROJECT_ID") ≠ [] → g (str "SECRET_NAME") ≠ [] →
        g (str "SECRET_VERSION") ≠ [] →
      NewConfig g = .ok ⟨g (str "GCP_PROJECT_ID"), g (str "SECRET_NAME"),
        g (str "SECRET_VERSION")⟩) := by
  refine ⟨?_, ?_, ?_, ?_⟩ <;> intros <;> simp_all [NewConfig]

/-- Claim C6, witness: with project "p" and secret "s" set and no
version, NewConfig succeeds with version "latest". -/
theorem newConfig_contract_witness :
    NewConfig getenvBothSet = .ok ⟨str "p", str "s", str "latest"⟩ := by
  have h := (newConfig_contract getenvBothSet).2.2.1 (by decide) (by decide)
    (by decide)
  exact h.trans (by decide)

/-- Claim C7: GetSecret passes to the remote fetch operation exactly the
resource name "projects/{project}/secrets/{secret}/versions/{version}";
on a successful fetch it returns the payload unchanged, and on a failed
fetch it returns the underlying error wrapped with the prefix "failed to
access secret: ". -/
theorem getSecret_contract (cfg : Config) (access : Str → Except Str Str) :
    resourceName cfg
      = str "projects/" ++ cfg.ProjectID ++ str "/secrets/" ++ cfg.SecretName
          ++ str "/versions/" ++ cfg.SecretVersion
    ∧ (∀ payload, access (resourceName cfg) = .ok payload →
        GetSecret cfg access = .ok payload)
    ∧ (∀ e, access (resourceName cfg) = .error e →
        GetSecret cfg access = .error (str "failed to access secret: " ++ e)) := by
  refine ⟨rfl, ?_, ?_⟩ <;> intro x hx <;> simp [GetSecret, hx]

/-- Claim C7, witness: for the configuration {p, s, v}, both the success
path and the failure path behave as stated. -/
theorem getSecret_contract_witness :
    resourceName cfgExample = str "projects/p/secrets/s/versions/v"
    ∧ GetSecret cfgExample accessOkExample = .ok (str "payload")
    ∧ GetSecret cfgExample accessErrExample
        = .error (str "failed to access secret: boom") := by
  refine ⟨by decide, ?_, ?_⟩
  · exact (getSecret_contract cfgExample accessOkExample).2.1
      (str "payload") rfl
  · exact ((getSecret_contract cfgExample accessErrExample).2.2
      (str "boom") rfl).trans (by decide)

/-- Claim C8: when the scanned lines consist of a prefix that loads
without error, then a malformed line, then arbitrary further lines, the
loader keeps every environment write of the prefix, stops at the
malformed line with its error wrapped as a failure to set an environment
variable, never processes the lines after it (the result does not depend
on them), and the error carries the 1-based number of the malformed
line. -/
theorem load_stops_at_first_bad_line (content : Str) (pre : List Str)
    (bad : Str) (rest : List Str) (env env1 : Env) (e : ParseError)
    (hscan : scanLines content = pre ++ bad :: rest)
    (hpre : loadLinesFrom pre 0 env = (env1, none))
    (hbad : trimSpace bad ≠ [])
    (herr : parseAndSetEnv (trimSpace bad) (pre.length + 1) env1 = .error e) :
    loadContentToEnv content env = (env1, some (.setEnvFailed e))
    ∧ e.LineNum = pre.length + 1
    ∧ (LoadError.setEnvFailed e).message
        = str "failed to set environment variable: " ++ e.message := by
  have hload : loadLinesFrom (scanLines content) 0 env = (env1, some e) := by
    rw [hscan, loadLinesFrom_append pre (bad :: rest) 0 env env1 hpre]
    simp only [loadLinesFrom]
    rw [if_neg hbad, Nat.zero_add, herr]
  refine ⟨?_, parseAndSetEnv_error_lineNum _ _ _ _ herr, rfl⟩
  unfold loadContentToEnv
  rw [hload]

/-- Claim C8, witness: in "A=1\nB\nC=3" the first line is applied, the
loader stops at malformed line 2, and line 3 is never processed. -/
theorem load_stops_at_first_bad_line_witness :
    scanLines (str "A=1\nB\nC=3") = [str "A=1"] ++ str "B" :: [str "C=3"]
    ∧ loadContentToEnv (str "A=1\nB\nC=3") []
        = ([(str "A", str "1")], some (.setEnvFailed
            ⟨str "B", 2, str "line must contain exactly one '=' character"⟩)) := by
  refine ⟨by decide, ?_⟩
  have h := (load_stops_at_first_bad_line (str "A=1\nB\nC=3") [str "A=1"]
      (str "B") [str "C=3"] [] [(str "A", str "1")]
      ⟨str "B", 2, str "line must contain exactly one '=' character"⟩
      (by decide) (by decide) (by decide) (by decide)).1
  exact h.trans (by decide)

/-- Claim C9: a line that is empty after trimming is skipped: the loader
continues with the remaining lines, the environment is untouched and no
error is produced for that line. -/
theorem blank_lines_skipped (l : Str) (ls : List Str) (k : Nat) (env : Env)
    (h : trimSpace l = []) :
    loadLinesFrom (l :: ls) k env = loadLinesFrom ls (k + 1) env := by
  simp only [loadLinesFrom]
  rw [if_pos h]

/-- Claim C9, witness: a whitespace-only line is skipped without any
effect. -/
theorem blank_lines_skipped_witness :
    trimSpace (str "   ") = []
    ∧ loadLinesFrom [str "   "] 0 [] = loadLinesFrom [] 1 [] :=
  ⟨by decide, blank_lines_skipped (str "   ") [] 0 [] (by decide)⟩

/-- Claim C10: bracket stripping only happens when the trimmed value
contains an equals sign; a value without one is written verbatim,
surrounding square brackets included. -/
theorem no_equals_value_verbatim (line rawKey rawValue : Str) (n : Nat)
    (env : Env)
    (hsplit : splitFirstEq line = some (rawKey, rawValue))
    (hkey : trimSpace rawKey ≠ [])
    (hval : (trimSpace rawValue).contains '=' = false) :
    parseAndSetEnv line n env
      = .ok ((trimSpace rawKey, trimSpace rawValue) :: env) :=
  parseAndSetEnv_plain_ok line rawKey rawValue n env hsplit hkey hval

/-- Claim C10, witness: "KEY=[abc]" sets KEY to "[abc]", brackets not
stripped. -/
theorem no_equals_value_verbatim_witness :
    splitFirstEq (str "KEY=[abc]") = some (str "KEY", str "[abc]")
    ∧ parseAndSetEnv (str "KEY=[abc]") 1 [] = .ok [(str "KEY", str "[abc]")] := by
  refine ⟨by decide, ?_⟩
  exact (no_equals_value_verbatim (str "KEY=[abc]") (str "KEY") (str "[abc]")
    1 [] (by decide) (by decide) (by decide)).trans (by decide)

end GCPSecretManager
